import Mathlib

/-!
Shallow embedding of the teleport ("tunnel") subsystem of the Battle for
Wesnoth pathfinder, `src/pathfind/teleport.cpp`, together with proofs of the
specification properties of that file.

Modelling conventions:
* `map_location` is a pair of integer coordinates; the code treats cells
  opaquely, only ever comparing them for equality and membership.
* `std::set<map_location>` and `std::unordered_set<map_location>` both have
  pure set semantics, so both are modelled as `Finset map_location`.
* The external filter engines (`unit_filter`, `terrain_filter`) are out of
  scope for the file; a `[tunnel]` record therefore carries their semantic
  content as functions (`filter_match`, `source_locs`, `target_locs`).
* `std::map<map_location, std::unordered_set<map_location>>` is a finite map
  with unique keys; it is modelled as a key set plus a value function that is
  empty off the key set.
* Constructors that can fail via `VALIDATE` (which throws) return
  `Except String`.
* The global `resources::tunnels` manager mutated by
  `manager::next_unique_id` is threaded explicitly through the functions
  that use it.
-/

namespace pathfind

/-- A board cell, modelling `map_location` (integer coordinates). -/
abbrev map_location : Type := Int × Int

/-- A pair of cell sets, modelling the typedef `teleport_pair =
std::pair<std::set<map_location>, std::set<map_location>>`. -/
abbrev teleport_pair : Type := Finset map_location × Finset map_location

/-- The observing team, reduced to the read-only query surface the teleport
code uses: `team::is_enemy(side)` and `team::fogged(loc)`. -/
structure team where
  is_enemy : Int → Bool
  fogged : map_location → Bool

/-- A unit, reduced to what this subsystem consults: its side number
(`unit::side()`) plus opaque attribute data that the eligibility filter may
inspect. -/
structure unit where
  side : Int
  attrs : Nat

/-- The read-only query surface of `resources::gameboard` used by the
`teleport_map` constructor: full-knowledge occupancy
(`units().find(loc) != units().end()`) and observer-visible occupancy
(`find_visible_unit(loc, viewing_team) != units().end()`). -/
structure game_board where
  occupied : map_location → Bool
  find_visible_unit : map_location → team → Bool

/-- The `config` data of one `[tunnel]` record as read by `teleport.cpp`.
Attribute fields are `Option`-valued (`none` means the attribute is absent);
`source_count`, `target_count`, `filter_count` model
`config::child_count("source")` etc.; the three functions carry the semantic
content of the child records as evaluated by the external filter engines:
`filter_match u` is `unit_filter(filter).matches(u)` (the unit filter never
uses the ignore-units context, per the comment in `get_teleport_pair`),
while `source_locs u ignore_units` and `target_locs u ignore_units` are the
cell sets produced by `terrain_filter::get_locations` under the normal
filter context (`ignore_units = false`) or under the
`ignore_units_filter_context` (`ignore_units = true`). -/
structure tunnel_cfg where
  id_attr : Option String
  reversed_attr : Option Bool
  saved_attr : Option Bool
  always_visible_attr : Option Bool
  pass_allied_units_attr : Option Bool
  allow_vision_attr : Option Bool
  source_count : Nat
  target_count : Nat
  filter_count : Nat
  filter_match : unit → Bool
  source_locs : unit → Bool → Finset map_location
  target_locs : unit → Bool → Finset map_location

/-- The state of a `teleport_group`: its stored config `cfg_`, its
direction flag `reversed_` and its identifier `id_`. -/
structure teleport_group where
  cfg_ : tunnel_cfg
  reversed_ : Bool
  id_ : String

/-- `teleport_group::get_teleport_id`. -/
def teleport_group.get_teleport_id (g : teleport_group) : String := g.id_

/-- `teleport_group::always_visible`: `cfg_["always_visible"].to_bool(false)`. -/
def teleport_group.always_visible (g : teleport_group) : Bool :=
  g.cfg_.always_visible_attr.getD false

/-- `teleport_group::pass_allied_units`: `cfg_["pass_allied_units"].to_bool(true)`. -/
def teleport_group.pass_allied_units (g : teleport_group) : Bool :=
  g.cfg_.pass_allied_units_attr.getD true

/-- `teleport_group::allow_vision`: `cfg_["allow_vision"].to_bool(true)`. -/
def teleport_group.allow_vision (g : teleport_group) : Bool :=
  g.cfg_.allow_vision_attr.getD true

/-- `teleport_group::get_teleport_pair`: if the unit filter matches `u`, the
source terrain filter fills the second component when `reversed_` and the
first otherwise, and the target terrain filter fills the other component;
if the unit filter does not match, the pair stays empty. The `ignore_units`
flag selects the filter context handed to the terrain filters only. -/
def teleport_group.get_teleport_pair (g : teleport_group) (u : unit)
    (ignore_units : Bool) : teleport_pair :=
  if g.cfg_.filter_match u then
    (if g.reversed_ then g.cfg_.target_locs u ignore_units
     else g.cfg_.source_locs u ignore_units,
     if g.reversed_ then g.cfg_.source_locs u ignore_units
     else g.cfg_.target_locs u ignore_units)
  else (∅, ∅)

/-- `teleport_group::to_config`: copy the stored config and overwrite the
`saved`, `reversed` and `id` attributes from the bookkeeping state. -/
def teleport_group.to_config (g : teleport_group) : tunnel_cfg :=
  { g.cfg_ with
    saved_attr := some true
    reversed_attr := some g.reversed_
    id_attr := some g.id_ }

/-- The reserved suffix appended to the id of the reversed twin of a named
tunnel (`reversed_suffix` in the anonymous namespace). -/
def reversed_suffix : String := "-__REVERSED__"

/-- Little-endian decimal digits, structurally recursive on a fuel argument
so that it reduces computationally; `fuel ≥ n` suffices since `n / 10 < n`
for nonzero `n`. -/
def natDigitsRevFuel : Nat → Nat → List Nat
  | 0, _ => []
  | fuel + 1, n => if n = 0 then [] else n % 10 :: natDigitsRevFuel fuel (n / 10)

/-- Little-endian decimal digits of a natural number (empty for zero). -/
def natDigitsRev (n : Nat) : List Nat := natDigitsRevFuel n n

/-- Big-endian decimal digits of a natural number, rendering zero as the
single digit 0. -/
def digitsBE (n : Nat) : List Nat :=
  if n = 0 then [0] else (natDigitsRev n).reverse

/-- The character for a decimal digit. -/
def digitChar (d : Nat) : Char := Char.ofNat (48 + d)

/-- Decimal rendering of a natural number. -/
def natToDecimal (n : Nat) : String := ((digitsBE n).map digitChar).asString

/-- Decimal rendering of an integer, modelling `std::to_string(int)`. -/
def int_to_string : Int → String
  | .ofNat n => natToDecimal n
  | .negSucc n => "-" ++ natToDecimal (n + 1)

/-- Value of a little-endian decimal digit list, used to invert
`natDigitsRev`. -/
def ofDigitsRev : List Nat → Nat
  | [] => 0
  | d :: ds => d + 10 * ofDigitsRev ds

/-- The state of the tunnel `manager`: the registered global groups
`tunnels_` and the id counter `id_` (a C++ `int`; overflow is irrelevant to
the properties proved here, so it is modelled as `Int`). -/
structure manager where
  tunnels_ : List teleport_group
  id_ : Int

/-- `manager::next_unique_id`: `std::to_string(++id_)`. The mutation of the
counter is made explicit by returning the updated manager. -/
def manager.next_unique_id (m : manager) : String × manager :=
  (int_to_string (m.id_ + 1), { m with id_ := m.id_ + 1 })

/-- `manager::add`: append the group to the registry. -/
def manager.add (m : manager) (g : teleport_group) : manager :=
  { m with tunnels_ := m.tunnels_ ++ [g] }

/-- `manager::remove`: erase every registered group whose id equals the
given id or the given id with the reversed suffix appended. -/
def manager.remove (m : manager) (id : String) : manager :=
  { m with
    tunnels_ := m.tunnels_.filter
      (fun t => !(decide (t.get_teleport_id = id)
        || decide (t.get_teleport_id = id ++ reversed_suffix))) }

/-- `manager::get`. -/
def manager.get (m : manager) : List teleport_group := m.tunnels_

/-- The `teleport_group(const config&)` constructor, used only for loading
from saves: it validates that the `id` and `reversed` attributes are
present and that there is exactly one `source`, `target` and `filter`
child, then reads `reversed` (default false) and `id` from the config. -/
def teleport_group.from_save (cfg : tunnel_cfg) : Except String teleport_group :=
  if cfg.id_attr.isNone then
    .error "missing mandatory wml key: tunnel id"
  else if cfg.reversed_attr.isNone then
    .error "missing mandatory wml key: tunnel reversed"
  else if cfg.source_count ≠ 1 then
    .error "The tunnel should have only one source child."
  else if cfg.target_count ≠ 1 then
    .error "The tunnel should have only one target child."
  else if cfg.filter_count ≠ 1 then
    .error "The tunnel should have only one filter child."
  else
    .ok { cfg_ := cfg
          reversed_ := cfg.reversed_attr.getD false
          id_ := cfg.id_attr.getD "" }

/-- The `teleport_group(const vconfig&, bool reversed)` constructor: it
validates the three child counts; an empty (or absent) `id` attribute makes
the group anonymous, in which case its id is freshly issued by the global
manager (threaded explicitly here) and no suffix is ever appended; a
non-empty id is taken as is, with the reversed suffix appended when
`reversed` is true. -/
def teleport_group.from_vconfig (cfg : tunnel_cfg) (reversed : Bool)
    (mgr : manager) : Except String (teleport_group × manager) :=
  if cfg.source_count ≠ 1 then
    .error "The tunnel should have only one source child."
  else if cfg.target_count ≠ 1 then
    .error "The tunnel should have only one target child."
  else if cfg.filter_count ≠ 1 then
    .error "The tunnel should have only one filter child."
  else if cfg.id_attr.getD "" = "" then
    .ok ({ cfg_ := cfg
           reversed_ := reversed
           id_ := (mgr.next_unique_id).1 }, (mgr.next_unique_id).2)
  else
    .ok ({ cfg_ := cfg
           reversed_ := reversed
           id_ := if reversed then cfg.id_attr.getD "" ++ reversed_suffix
                  else cfg.id_attr.getD "" }, mgr)

/-- The persisted `manager` state: the `next_teleport_group_id` attribute
(`to_int(0)` on load; the C++ round-trips it through its decimal string,
which is lossless for `int`) and the list of `[tunnel]` children. -/
structure manager_cfg where
  next_teleport_group_id : Option Int
  tunnels : List tunnel_cfg

/-- The loading loop of `manager::manager(const config&)`: a record whose
`saved` attribute is not true is logged and skipped; otherwise the record is
validated by the save constructor (whose failure aborts the load) and the
resulting group appended. -/
def manager.load_tunnels (m : manager) : List tunnel_cfg → Except String manager
  | [] => .ok m
  | t :: rest =>
    if t.saved_attr.getD false = false then manager.load_tunnels m rest
    else
      match teleport_group.from_save t with
      | .error e => .error e
      | .ok g => manager.load_tunnels (m.add g) rest

/-- `manager::manager(const config&)`: read the counter
(`cfg["next_teleport_group_id"].to_int(0)`) and load the tunnel records. -/
def manager.from_config (cfg : manager_cfg) : Except String manager :=
  manager.load_tunnels
    { tunnels_ := [], id_ := cfg.next_teleport_group_id.getD 0 } cfg.tunnels

/-- `manager::to_config`: store every group via
`teleport_group::to_config` and the counter. -/
def manager.to_config (m : manager) : manager_cfg :=
  { next_teleport_group_id := some m.id_
    tunnels := m.tunnels_.map teleport_group.to_config }

/-- The fog-narrowing step of the `teleport_map` constructor (the block
guarded by `!see_all && !group.always_visible() &&
viewing_team.is_enemy(unit.side())`): when the guard holds, keep in each
component exactly the cells not fogged to the observing team; otherwise the
pair passes through unchanged. -/
def fog_narrow (see_all always_visible is_enemy : Bool)
    (fogged : map_location → Bool) (locations : teleport_pair) : teleport_pair :=
  if !see_all && !always_visible && is_enemy then
    (locations.1.filter (fun loc => fogged loc = false),
     locations.2.filter (fun loc => fogged loc = false))
  else locations

/-- The alliance-occupancy-blocking step of the `teleport_map` constructor
(the loop guarded by `!group.pass_allied_units() && !ignore_units &&
!check_vision`): when the guard holds, erase from the target component
every cell holding a unit, looked up with full knowledge when `see_all` and
as visible to the observer otherwise; the source component always passes
through unchanged. -/
def alliance_block (pass_allied_units ignore_units check_vision see_all : Bool)
    (occupied find_visible : map_location → Bool)
    (locations : teleport_pair) : teleport_pair :=
  if !pass_allied_units && !ignore_units && !check_vision then
    (locations.1,
     locations.2.filter
       (fun loc => (if see_all then occupied loc else find_visible loc) = false))
  else locations

/-- The per-group pipeline of the `teleport_map` constructor body: resolve
the group for the unit, narrow by fog, then apply alliance blocking. -/
def surviving_pair (u : unit) (viewing_team : team) (board : game_board)
    (see_all ignore_units check_vision : Bool) (g : teleport_group) : teleport_pair :=
  alliance_block g.pass_allied_units ignore_units check_vision see_all
    board.occupied (fun loc => board.find_visible_unit loc viewing_team)
    (fog_narrow see_all g.always_visible (viewing_team.is_enemy u.side)
      viewing_team.fogged
      (g.get_teleport_pair u ignore_units))

/-- The state of a `teleport_map`. The C++ member `teleport_map_` is a
`std::map` (a finite map with unique keys), modelled as the key set
`teleport_map_keys` together with the value function `teleport_map_val`,
which is empty off the key set. -/
structure teleport_map where
  teleport_map_keys : Finset map_location
  teleport_map_val : map_location → Finset map_location
  sources_ : Finset map_location
  targets_ : Finset map_location

/-- The shared `empty_set_` member returned by `get_adjacents` for cells
with no entry. -/
def empty_set_ : Finset map_location := ∅

/-- One iteration of the group loop in the `teleport_map` constructor: a
group failing the vision gate (`check_vision && !group.allow_vision()`) is
skipped; otherwise its surviving pair is accumulated. The C++ loop over the
surviving source cells performs one emplace-or-union per source cell, all at
distinct keys and with the same target set, so its net effect on the map is
exactly the keyset union and pointwise value update written here; the
surviving sources and targets are then unioned into the aggregate sets. -/
def teleport_map.step (u : unit) (viewing_team : team) (board : game_board)
    (see_all ignore_units check_vision : Bool)
    (m : teleport_map) (g : teleport_group) : teleport_map :=
  if check_vision && !g.allow_vision then m
  else
    let locations := surviving_pair u viewing_team board see_all ignore_units check_vision g
    { teleport_map_keys := m.teleport_map_keys ∪ locations.1
      teleport_map_val := fun loc =>
        if loc ∈ locations.1 then m.teleport_map_val loc ∪ locations.2
        else m.teleport_map_val loc
      sources_ := m.sources_ ∪ locations.1
      targets_ := m.targets_ ∪ locations.2 }

/-- The `teleport_map` constructor: fold the group loop over the group list
starting from the empty map. -/
def teleport_map.build (groups : List teleport_group) (u : unit)
    (viewing_team : team) (board : game_board)
    (see_all ignore_units check_vision : Bool) : teleport_map :=
  groups.foldl (teleport_map.step u viewing_team board see_all ignore_units check_vision)
    { teleport_map_keys := ∅
      teleport_map_val := fun _ => ∅
      sources_ := ∅
      targets_ := ∅ }

/-- `teleport_map::get_adjacents`: the entry for the cell when present, the
shared empty set otherwise. -/
def teleport_map.get_adjacents (m : teleport_map) (loc : map_location) :
    Finset map_location :=
  if loc ∈ m.teleport_map_keys then m.teleport_map_val loc else empty_set_

/-- `teleport_map::get_sources`. -/
def teleport_map.get_sources (m : teleport_map) : Finset map_location := m.sources_

/-- `teleport_map::get_targets`. -/
def teleport_map.get_targets (m : teleport_map) : Finset map_location := m.targets_

/-- Issuing a sequence of ids from a manager: each step calls
`next_unique_id` and continues with the updated manager. -/
def issue_ids (m : manager) : Nat → List String
  | 0 => []
  | n + 1 => (m.next_unique_id).1 :: issue_ids (m.next_unique_id).2 n

/-- The group a save-load reconstructs from a stored group: same id and
direction, config as re-serialized by `to_config`. -/
def reconstruct_group (g : teleport_group) : teleport_group :=
  { cfg_ := g.to_config, reversed_ := g.reversed_, id_ := g.id_ }

/-- Concrete unit used to evaluate the theorems on closed inputs. -/
def uTest : unit := { side := 1, attrs := 0 }

/-- Concrete observer for closed evaluation: nobody is an enemy and no cell
is fogged. -/
def teamTest : team := { is_enemy := fun _ => false, fogged := fun _ => false }

/-- Concrete board for closed evaluation: every cell is free. -/
def boardTest : game_board :=
  { occupied := fun _ => false, find_visible_unit := fun _ _ => false }

/-- Concrete well-formed tunnel record: matches every unit, sources
(0,0) and (1,0), target (5,5). -/
def cfgTestA : tunnel_cfg :=
  { id_attr := some "tun"
    reversed_attr := none
    saved_attr := none
    always_visible_attr := none
    pass_allied_units_attr := none
    allow_vision_attr := none
    source_count := 1
    target_count := 1
    filter_count := 1
    filter_match := fun _ => true
    source_locs := fun _ _ => {((0 : Int), (0 : Int)), ((1 : Int), (0 : Int))}
    target_locs := fun _ _ => {((5 : Int), (5 : Int))} }

/-- Concrete tunnel record sharing source (0,0) with `cfgTestA` but with the
disjoint target (7,7). -/
def cfgTestB : tunnel_cfg :=
  { cfgTestA with
    source_locs := fun _ _ => {((0 : Int), (0 : Int))}
    target_locs := fun _ _ => {((7 : Int), (7 : Int))} }

/-- Concrete tunnel record whose eligibility filter matches no unit. -/
def cfgTestNoMatch : tunnel_cfg := { cfgTestA with filter_match := fun _ => false }

/-- Concrete anonymous tunnel record (no id attribute). -/
def cfgAnon : tunnel_cfg := { cfgTestA with id_attr := none }

/-- Concrete forward group over `cfgTestA`. -/
def gA : teleport_group := { cfg_ := cfgTestA, reversed_ := false, id_ := "A" }

/-- Concrete forward group over `cfgTestB`. -/
def gB : teleport_group := { cfg_ := cfgTestB, reversed_ := false, id_ := "B" }

/-- Concrete registered forward tunnel named "tun". -/
def gFwd : teleport_group := { cfg_ := cfgTestA, reversed_ := false, id_ := "tun" }

/-- Concrete reversed twin of `gFwd`, with the suffixed id. -/
def gRev : teleport_group :=
  { cfg_ := cfgTestA, reversed_ := true, id_ := "tun-__REVERSED__" }

/-- Concrete manager registry holding `gFwd` and `gRev`, counter 7. -/
def mTestC6 : manager := { tunnels_ := [gFwd, gRev], id_ := 7 }

/-! ### Decimal rendering: correctness and injectivity -/

theorem ofDigitsRev_natDigitsRevFuel :
    ∀ fuel n : Nat, n ≤ fuel → ofDigitsRev (natDigitsRevFuel fuel n) = n := by
  intro fuel
  induction fuel with
  | zero =>
    intro n hn
    have h0 : n = 0 := Nat.le_zero.mp hn
    subst h0
    rfl
  | succ fuel ih =>
    intro n hn
    simp only [natDigitsRevFuel]
    split
    · rename_i h
      subst h
      rfl
    · rename_i h
      have hlt : n / 10 < n := Nat.div_lt_self (Nat.pos_of_ne_zero h) (by decide)
      rw [ofDigitsRev, ih (n / 10) (by omega)]
      exact Nat.mod_add_div n 10

theorem ofDigitsRev_natDigitsRev (n : Nat) : ofDigitsRev (natDigitsRev n) = n :=
  ofDigitsRev_natDigitsRevFuel n n (Nat.le_refl n)

theorem natDigitsRevFuel_lt :
    ∀ fuel n : Nat, ∀ d ∈ natDigitsRevFuel fuel n, d < 10 := by
  intro fuel
  induction fuel with
  | zero => intro n d hd; simp [natDigitsRevFuel] at hd
  | succ fuel ih =>
    intro n d hd
    simp only [natDigitsRevFuel] at hd
    split at hd
    · simp at hd
    · rcases List.mem_cons.mp hd with h1 | h2
      · exact h1 ▸ Nat.mod_lt n (by decide)
      · exact ih (n / 10) d h2

theorem digitsBE_lt (n : Nat) : ∀ d ∈ digitsBE n, d < 10 := by
  rw [digitsBE]
  split
  · simp
  · intro d hd
    exact natDigitsRevFuel_lt n n d (List.mem_reverse.mp hd)

theorem unDigits_digitsBE (n : Nat) : ofDigitsRev (digitsBE n).reverse = n := by
  rw [digitsBE]
  split
  · rename_i h; subst h; rfl
  · rw [List.reverse_reverse]
    exact ofDigitsRev_natDigitsRev n

theorem digitsBE_injective : Function.Injective digitsBE := by
  intro a b h
  have ha := unDigits_digitsBE a
  rw [h, unDigits_digitsBE] at ha
  exact ha.symm

theorem digitsBE_ne_nil (n : Nat) : digitsBE n ≠ [] := by
  rw [digitsBE]
  split
  · simp
  · intro hc
    rw [List.reverse_eq_nil_iff] at hc
    have hr := ofDigitsRev_natDigitsRev n
    rw [hc] at hr
    simp only [ofDigitsRev] at hr
    rename_i h
    omega

theorem digitChar_inj_lt :
    ∀ a, a < 10 → ∀ b, b < 10 → digitChar a = digitChar b → a = b := by decide

theorem digitChar_ne_dash : ∀ d, d < 10 → digitChar d ≠ '-' := by decide

theorem map_digitChar_inj :
    ∀ xs ys : List Nat, (∀ d ∈ xs, d < 10) → (∀ d ∈ ys, d < 10) →
      xs.map digitChar = ys.map digitChar → xs = ys := by
  intro xs
  induction xs with
  | nil =>
    intro ys _ _ h
    cases ys with
    | nil => rfl
    | cons y ys => simp at h
  | cons x xs ih =>
    intro ys hx hy h
    cases ys with
    | nil => simp at h
    | cons y ys =>
      simp only [List.map_cons, List.cons.injEq] at h
      have hxy : x = y :=
        digitChar_inj_lt x (hx x (by simp)) y (hy y (by simp)) h.1
      rw [hxy, ih ys (fun d hd => hx d (by simp [hd])) (fun d hd => hy d (by simp [hd])) h.2]

theorem natToDecimal_injective : Function.Injective natToDecimal := by
  intro a b h
  have hdata : (digitsBE a).map digitChar = (digitsBE b).map digitChar :=
    congrArg String.data h
  exact digitsBE_injective
    (map_digitChar_inj _ _ (digitsBE_lt a) (digitsBE_lt b) hdata)

theorem string_data_append (a b : String) : (a ++ b).data = a.data ++ b.data := by
  cases a
  cases b
  rfl

theorem natToDecimal_ne_dash_cons (n : Nat) (s : String) :
    natToDecimal n ≠ "-" ++ s := by
  intro h
  have hdata : (digitsBE n).map digitChar = '-' :: s.data := by
    have h2 := congrArg String.data h
    rw [string_data_append] at h2
    exact h2
  rcases List.exists_cons_of_ne_nil (digitsBE_ne_nil n) with ⟨d, rest, hde⟩
  rw [hde, List.map_cons] at hdata
  have hd10 : d < 10 := digitsBE_lt n d (hde ▸ List.mem_cons_self d rest)
  exact digitChar_ne_dash d hd10 (List.head_eq_of_cons_eq hdata)

theorem int_to_string_injective : Function.Injective int_to_string := by
  intro a b h
  match a, b with
  | .ofNat x, .ofNat y =>
    have hx : natToDecimal x = natToDecimal y := h
    rw [natToDecimal_injective hx]
  | .negSucc x, .negSucc y =>
    have hd : ("-" ++ natToDecimal (x + 1)).data = ("-" ++ natToDecimal (y + 1)).data :=
      congrArg String.data h
    rw [string_data_append, string_data_append] at hd
    have htail : (natToDecimal (x + 1)).data = (natToDecimal (y + 1)).data := by
      simpa using hd
    have hxy : x + 1 = y + 1 := natToDecimal_injective (String.ext htail)
    have hx : x = y := by omega
    rw [hx]
  | .ofNat x, .negSucc y =>
    exact absurd h (natToDecimal_ne_dash_cons x (natToDecimal (y + 1)))
  | .negSucc x, .ofNat y =>
    exact absurd h.symm (natToDecimal_ne_dash_cons y (natToDecimal (x + 1)))

/-! ### The claims -/

/-- C1: the fog-narrowing step is monotonic — the narrowed source and target
sets are subsets of the resolved sets, narrowing with see_all = true keeps
every cell that narrowing with see_all = false keeps for the same fog state,
and narrowing changes nothing unless see_all is false, the group is not
always visible, and the unit's side is an enemy of the observing team. -/
theorem fog_narrow_monotonic (see_all av enemy : Bool)
    (fogged : map_location → Bool) (locs : teleport_pair) :
    (fog_narrow see_all av enemy fogged locs).1 ⊆ locs.1
    ∧ (fog_narrow see_all av enemy fogged locs).2 ⊆ locs.2
    ∧ (fog_narrow false av enemy fogged locs).1 ⊆ (fog_narrow true av enemy fogged locs).1
    ∧ (fog_narrow false av enemy fogged locs).2 ⊆ (fog_narrow true av enemy fogged locs).2
    ∧ fog_narrow true av enemy fogged locs = locs
    ∧ fog_narrow see_all true enemy fogged locs = locs
    ∧ fog_narrow see_all av false fogged locs = locs := by
  have htrue : fog_narrow true av enemy fogged locs = locs := by
    simp [fog_narrow]
  have hsub1 : (fog_narrow see_all av enemy fogged locs).1 ⊆ locs.1 := by
    unfold fog_narrow
    split
    · exact Finset.filter_subset _ _
    · exact Finset.Subset.refl _
  have hsub2 : (fog_narrow see_all av enemy fogged locs).2 ⊆ locs.2 := by
    unfold fog_narrow
    split
    · exact Finset.filter_subset _ _
    · exact Finset.Subset.refl _
  refine ⟨hsub1, hsub2, ?_, ?_, htrue, by simp [fog_narrow], by simp [fog_narrow]⟩
  · rw [htrue]
    unfold fog_narrow
    split
    · exact Finset.filter_subset _ _
    · exact Finset.Subset.refl _
  · rw [htrue]
    unfold fog_narrow
    split
    · exact Finset.filter_subset _ _
    · exact Finset.Subset.refl _

/-- C2: the alliance-occupancy-blocking step never touches the source set,
only shrinks the target set, changes nothing when ignore_units, check_vision
or the pass-allied-units flag is set, and when it runs it consults the
full-knowledge occupancy lookup exactly when see_all is true and the
observer-visible lookup exactly when see_all is false. -/
theorem alliance_block_frame (pa iu cv sa : Bool)
    (occ vis occ2 vis2 : map_location → Bool) (locs : teleport_pair) :
    (alliance_block pa iu cv sa occ vis locs).1 = locs.1
    ∧ (alliance_block pa iu cv sa occ vis locs).2 ⊆ locs.2
    ∧ alliance_block pa true cv sa occ vis locs = locs
    ∧ alliance_block pa iu true sa occ vis locs = locs
    ∧ alliance_block true iu cv sa occ vis locs = locs
    ∧ alliance_block pa iu cv true occ vis locs = alliance_block pa iu cv true occ vis2 locs
    ∧ alliance_block pa iu cv false occ vis locs = alliance_block pa iu cv false occ2 vis locs
    ∧ (∀ l, l ∈ (alliance_block false false false true occ vis locs).2
        ↔ l ∈ locs.2 ∧ occ l = false)
    ∧ (∀ l, l ∈ (alliance_block false false false false occ vis locs).2
        ↔ l ∈ locs.2 ∧ vis l = false) := by
  refine ⟨?_, ?_, by simp [alliance_block], by simp [alliance_block],
    by simp [alliance_block], by simp [alliance_block], by simp [alliance_block],
    ?_, ?_⟩
  · unfold alliance_block
    split
    · rfl
    · rfl
  · unfold alliance_block
    split
    · exact Finset.filter_subset _ _
    · exact Finset.Subset.refl _
  · intro l
    simp [alliance_block, Finset.mem_filter]
  · intro l
    simp [alliance_block, Finset.mem_filter]

/-- C3: two groups built from the same raw tunnel data with opposite
reversed flags resolve, for any unit the eligibility filter matches and any
ignore_units flag, to swapped source and target sets. -/
theorem get_teleport_pair_reversed_swap (c : tunnel_cfg) (id1 id2 : String)
    (u : unit) (iu : Bool) (h : c.filter_match u = true) :
    (teleport_group.get_teleport_pair ⟨c, false, id1⟩ u iu).1
      = (teleport_group.get_teleport_pair ⟨c, true, id2⟩ u iu).2
    ∧ (teleport_group.get_teleport_pair ⟨c, false, id1⟩ u iu).2
      = (teleport_group.get_teleport_pair ⟨c, true, id2⟩ u iu).1 := by
  simp [teleport_group.get_teleport_pair, h]

theorem get_teleport_pair_reversed_swap_witness :
    cfgTestA.filter_match uTest = true
    ∧ (teleport_group.get_teleport_pair ⟨cfgTestA, false, "f"⟩ uTest false).1
      = (teleport_group.get_teleport_pair ⟨cfgTestA, true, "r"⟩ uTest false).2 :=
  ⟨rfl, (get_teleport_pair_reversed_swap cfgTestA "f" "r" uTest false rfl).1⟩

/-- C4: a group whose eligibility filter does not match the unit resolves to
an empty source set and an empty target set, for either value of the
ignore_units flag and regardless of the region filters. -/
theorem get_teleport_pair_no_match (g : teleport_group) (u : unit) (iu : Bool)
    (h : g.cfg_.filter_match u = false) :
    teleport_group.get_teleport_pair g u iu = (∅, ∅) := by
  simp [teleport_group.get_teleport_pair, h]

theorem get_teleport_pair_no_match_witness :
    (teleport_group.mk cfgTestNoMatch false "n").cfg_.filter_match uTest = false
    ∧ teleport_group.get_teleport_pair ⟨cfgTestNoMatch, false, "n"⟩ uTest true = (∅, ∅) :=
  ⟨rfl, get_teleport_pair_no_match ⟨cfgTestNoMatch, false, "n"⟩ uTest true rfl⟩

theorem step_sources_targets_mono (u : unit) (vt : team) (board : game_board)
    (sa iu cv : Bool) (m : teleport_map) (g : teleport_group) :
    m.sources_ ⊆ (teleport_map.step u vt board sa iu cv m g).sources_
    ∧ m.targets_ ⊆ (teleport_map.step u vt board sa iu cv m g).targets_ := by
  unfold teleport_map.step
  split
  · exact ⟨Finset.Subset.refl _, Finset.Subset.refl _⟩
  · exact ⟨Finset.subset_union_left, Finset.subset_union_left⟩

theorem foldl_step_sources_targets_mono (u : unit) (vt : team) (board : game_board)
    (sa iu cv : Bool) :
    ∀ (gs : List teleport_group) (m : teleport_map),
      m.sources_ ⊆ (gs.foldl (teleport_map.step u vt board sa iu cv) m).sources_
      ∧ m.targets_ ⊆ (gs.foldl (teleport_map.step u vt board sa iu cv) m).targets_ := by
  intro gs
  induction gs with
  | nil => intro m; exact ⟨Finset.Subset.refl _, Finset.Subset.refl _⟩
  | cons g gs ih =>
    intro m
    rw [List.foldl_cons]
    exact ⟨Finset.Subset.trans (step_sources_targets_mono u vt board sa iu cv m g).1 (ih _).1,
      Finset.Subset.trans (step_sources_targets_mono u vt board sa iu cv m g).2 (ih _).2⟩

theorem foldl_step_accumulates (u : unit) (vt : team) (board : game_board)
    (sa iu cv : Bool) :
    ∀ (gs : List teleport_group) (m : teleport_map) (g : teleport_group),
      g ∈ gs → (cv && !g.allow_vision) = false →
      (surviving_pair u vt board sa iu cv g).1
        ⊆ (gs.foldl (teleport_map.step u vt board sa iu cv) m).sources_
      ∧ (surviving_pair u vt board sa iu cv g).2
        ⊆ (gs.foldl (teleport_map.step u vt board sa iu cv) m).targets_ := by
  intro gs
  induction gs with
  | nil => intro m g hg _; exact absurd hg (List.not_mem_nil g)
  | cons g2 gs ih =>
    intro m g hg hskip
    rw [List.foldl_cons]
    rcases List.mem_cons.mp hg with heq | hmem
    · subst heq
      refine ⟨Finset.Subset.trans ?_ (foldl_step_sources_targets_mono u vt board sa iu cv gs _).1,
        Finset.Subset.trans ?_ (foldl_step_sources_targets_mono u vt board sa iu cv gs _).2⟩
      · unfold teleport_map.step
        rw [if_neg (by simp [hskip])]
        exact Finset.subset_union_right
      · unfold teleport_map.step
        rw [if_neg (by simp [hskip])]
        exact Finset.subset_union_right
    · exact ih _ g hmem hskip

/-- C5: when two groups survive the narrowing steps with a shared source
cell, the built adjacency map holds, at that cell, the union of both
surviving target sets (the second group unions into the entry, it does not
overwrite it), and the aggregate source and target sets accumulate every
group's surviving source cells and surviving target cells — for any group
list — regardless of which source a target paired with. -/
theorem teleport_map_shared_source_union (g1 g2 : teleport_group) (u : unit)
    (vt : team) (board : game_board) (sa iu cv : Bool) (s : map_location)
    (h1 : (cv && !g1.allow_vision) = false)
    (h2 : (cv && !g2.allow_vision) = false)
    (hs1 : s ∈ (surviving_pair u vt board sa iu cv g1).1)
    (hs2 : s ∈ (surviving_pair u vt board sa iu cv g2).1) :
    (teleport_map.build [g1, g2] u vt board sa iu cv).get_adjacents s
      = (surviving_pair u vt board sa iu cv g1).2
        ∪ (surviving_pair u vt board sa iu cv g2).2
    ∧ (teleport_map.build [g1, g2] u vt board sa iu cv).get_sources
      = (surviving_pair u vt board sa iu cv g1).1
        ∪ (surviving_pair u vt board sa iu cv g2).1
    ∧ (teleport_map.build [g1, g2] u vt board sa iu cv).get_targets
      = (surviving_pair u vt board sa iu cv g1).2
        ∪ (surviving_pair u vt board sa iu cv g2).2
    ∧ (∀ (gs : List teleport_group) (g : teleport_group),
        g ∈ gs → (cv && !g.allow_vision) = false →
        (surviving_pair u vt board sa iu cv g).1
          ⊆ (teleport_map.build gs u vt board sa iu cv).get_sources
        ∧ (surviving_pair u vt board sa iu cv g).2
          ⊆ (teleport_map.build gs u vt board sa iu cv).get_targets) := by
  refine ⟨?_, ?_, ?_, ?_⟩
  · simp [teleport_map.build, teleport_map.step, teleport_map.get_adjacents,
      h1, h2, hs1, hs2]
  · simp [teleport_map.build, teleport_map.step, teleport_map.get_sources, h1, h2]
  · simp [teleport_map.build, teleport_map.step, teleport_map.get_targets, h1, h2]
  · intro gs g hg hskip
    exact foldl_step_accumulates u vt board sa iu cv gs _ g hg hskip

theorem teleport_map_shared_source_union_witness :
    ((0 : Int), (0 : Int)) ∈ (surviving_pair uTest teamTest boardTest false false false gA).1
    ∧ ((0 : Int), (0 : Int)) ∈ (surviving_pair uTest teamTest boardTest false false false gB).1
    ∧ (teleport_map.build [gA, gB] uTest teamTest boardTest false false false).get_adjacents
        ((0 : Int), (0 : Int))
      = (surviving_pair uTest teamTest boardTest false false false gA).2
        ∪ (surviving_pair uTest teamTest boardTest false false false gB).2 :=
  ⟨by decide, by decide,
    (teleport_map_shared_source_union gA gB uTest teamTest boardTest false false false
      ((0 : Int), (0 : Int)) rfl rfl (by decide) (by decide)).1⟩

/-- C6: removing a forward id from a manager registry deletes every group
whose id is that id or that id with the reversed suffix appended (both
halves of a named tunnel) and no other group, and removing an id unrelated
to every registered id leaves the registry unchanged. -/
theorem manager_remove_spec (m : manager) (fid uid : String)
    (hu : ∀ t ∈ m.tunnels_, t.get_teleport_id ≠ uid
      ∧ t.get_teleport_id ≠ uid ++ reversed_suffix) :
    (∀ t ∈ (manager.remove m fid).tunnels_,
      t.get_teleport_id ≠ fid ∧ t.get_teleport_id ≠ fid ++ reversed_suffix)
    ∧ (∀ t ∈ m.tunnels_,
        t.get_teleport_id ≠ fid → t.get_teleport_id ≠ fid ++ reversed_suffix →
        t ∈ (manager.remove m fid).tunnels_)
    ∧ manager.remove m uid = m := by
  refine ⟨?_, ?_, ?_⟩
  · intro t ht
    rw [manager.remove] at ht
    simp only [List.mem_filter] at ht
    have hpred := ht.2
    simp only [Bool.not_eq_true', Bool.or_eq_false_iff, decide_eq_false_iff_not] at hpred
    exact hpred
  · intro t ht hne1 hne2
    rw [manager.remove]
    simp only [List.mem_filter]
    refine ⟨ht, ?_⟩
    simp [hne1, hne2]
  · have hfilter : m.tunnels_.filter
        (fun t => !(decide (t.get_teleport_id = uid)
          || decide (t.get_teleport_id = uid ++ reversed_suffix))) = m.tunnels_ := by
      apply List.filter_eq_self.mpr
      intro t ht
      have := hu t ht
      simp [this.1, this.2]
    rw [manager.remove, hfilter]

theorem manager_remove_spec_witness :
    (∀ t ∈ mTestC6.tunnels_, t.get_teleport_id ≠ "zzz"
      ∧ t.get_teleport_id ≠ "zzz" ++ reversed_suffix)
    ∧ manager.remove mTestC6 "zzz" = mTestC6
    ∧ (∀ t ∈ (manager.remove mTestC6 "tun").tunnels_,
        t.get_teleport_id ≠ "tun" ∧ t.get_teleport_id ≠ "tun" ++ reversed_suffix) :=
  ⟨by decide, (manager_remove_spec mTestC6 "tun" "zzz" (by decide)).2.2,
    (manager_remove_spec mTestC6 "tun" "zzz" (by decide)).1⟩

theorem load_tunnels_map_to_config (gs : List teleport_group) :
    ∀ acc : manager,
      (∀ g ∈ gs, g.cfg_.source_count = 1 ∧ g.cfg_.target_count = 1
        ∧ g.cfg_.filter_count = 1) →
      manager.load_tunnels acc (gs.map teleport_group.to_config)
        = .ok { tunnels_ := acc.tunnels_ ++ gs.map reconstruct_group, id_ := acc.id_ } := by
  induction gs with
  | nil =>
    intro acc _
    simp [manager.load_tunnels]
  | cons g gs ih =>
    intro acc hv
    obtain ⟨hc1, hc2, hc3⟩ := hv g (List.mem_cons_self g gs)
    have hsaved : (teleport_group.to_config g).saved_attr.getD false = true := rfl
    have hfs : teleport_group.from_save (teleport_group.to_config g)
        = .ok (reconstruct_group g) := by
      simp [teleport_group.from_save, teleport_group.to_config, reconstruct_group,
        hc1, hc2, hc3]
    simp only [List.map_cons, manager.load_tunnels, hsaved, hfs]
    rw [if_neg (by simp),
      ih (acc.add (reconstruct_group g)) (fun g2 hg2 => hv g2 (List.mem_cons_of_mem g hg2))]
    simp [manager.add, List.append_assoc]

/-- C7: serializing a manager whose stored groups are structurally valid and
rebuilding a manager from the serialized form succeeds and yields the same
sequence of group ids, the same sequence of direction flags, and an equal
counter value. -/
theorem manager_to_config_roundtrip (m : manager)
    (hv : ∀ g ∈ m.tunnels_, g.cfg_.source_count = 1 ∧ g.cfg_.target_count = 1
      ∧ g.cfg_.filter_count = 1) :
    ∃ m2 : manager, manager.from_config m.to_config = .ok m2
      ∧ m2.id_ = m.id_
      ∧ m2.tunnels_.map (fun g => (g.get_teleport_id, g.reversed_))
        = m.tunnels_.map (fun g => (g.get_teleport_id, g.reversed_)) := by
  refine ⟨{ tunnels_ := m.tunnels_.map reconstruct_group, id_ := m.id_ }, ?_, rfl, ?_⟩
  · rw [manager.from_config]
    simp only [manager.to_config, Option.getD_some]
    rw [load_tunnels_map_to_config m.tunnels_ { tunnels_ := [], id_ := m.id_ } hv]
    simp
  · rw [List.map_map]
    exact List.map_congr_left (fun g _ => rfl)

theorem manager_to_config_roundtrip_witness :
    (∀ g ∈ mTestC6.tunnels_, g.cfg_.source_count = 1 ∧ g.cfg_.target_count = 1
      ∧ g.cfg_.filter_count = 1)
    ∧ (∃ m2 : manager, manager.from_config mTestC6.to_config = .ok m2
        ∧ m2.id_ = mTestC6.id_
        ∧ m2.tunnels_.map (fun g => (g.get_teleport_id, g.reversed_))
          = mTestC6.tunnels_.map (fun g => (g.get_teleport_id, g.reversed_))) :=
  ⟨by decide, manager_to_config_roundtrip mTestC6 (by decide)⟩

theorem issue_ids_eq (n : Nat) :
    ∀ m : manager, issue_ids m n
      = (List.range n).map (fun i : Nat => int_to_string (m.id_ + 1 + (i : Int))) := by
  induction n with
  | zero => intro m; rfl
  | succ n ih =>
    intro m
    rw [issue_ids, List.range_succ_eq_map, List.map_cons, List.map_map, ih]
    refine List.cons_eq_cons.mpr ⟨by simp [manager.next_unique_id], ?_⟩
    apply List.map_congr_left
    intro i _
    simp only [Function.comp_apply, manager.next_unique_id]
    congr 1
    push_cast
    ring

/-- C8: issuing N ids from a manager with a fresh counter yields the decimal
strings of 1 through N in order (the counter is pre-incremented, so the
first id renders 1 and never 0), and the issued list has no duplicates. -/
theorem next_unique_id_fresh_sequence (m : manager) (h : m.id_ = 0) (N : Nat) :
    issue_ids m N = (List.range N).map (fun i : Nat => int_to_string ((i : Int) + 1))
    ∧ (issue_ids m N).Nodup
    ∧ (0 < N → (issue_ids m N).head? = some "1") := by
  have heq : issue_ids m N
      = (List.range N).map (fun i : Nat => int_to_string ((i : Int) + 1)) := by
    rw [issue_ids_eq N m]
    apply List.map_congr_left
    intro i _
    rw [h]
    congr 1
    ring
  refine ⟨heq, ?_, ?_⟩
  · rw [heq]
    refine List.Nodup.map ?_ (List.nodup_range N)
    intro a b hab
    have := int_to_string_injective hab
    omega
  · intro hN
    obtain ⟨n, rfl⟩ : ∃ n, N = n + 1 := ⟨N - 1, by omega⟩
    rw [issue_ids]
    simp only [manager.next_unique_id, h, List.head?_cons]
    rfl

theorem next_unique_id_fresh_sequence_witness :
    ({ tunnels_ := [], id_ := 0 } : manager).id_ = 0
    ∧ issue_ids { tunnels_ := [], id_ := 0 } 3
      = (List.range 3).map (fun i : Nat => int_to_string ((i : Int) + 1))
    ∧ issue_ids { tunnels_ := [], id_ := 0 } 3 = ["1", "2", "3"] :=
  ⟨rfl, (next_unique_id_fresh_sequence { tunnels_ := [], id_ := 0 } rfl 3).1, by decide⟩

theorem build_keys_eq_sources (u : unit) (vt : team) (board : game_board)
    (sa iu cv : Bool) :
    ∀ (gs : List teleport_group) (m : teleport_map),
      m.teleport_map_keys = m.sources_ →
      (gs.foldl (teleport_map.step u vt board sa iu cv) m).teleport_map_keys
        = (gs.foldl (teleport_map.step u vt board sa iu cv) m).sources_ := by
  intro gs
  induction gs with
  | nil => intro m h; exact h
  | cons g gs ih =>
    intro m h
    rw [List.foldl_cons]
    apply ih
    unfold teleport_map.step
    split
    · exact h
    · simp [h]

/-- C9: building an adjacency map from an empty group list yields empty
aggregate source and target sets, and every lookup — in particular any
lookup at a cell that is no surviving group's source — returns the shared
empty set instead of signaling an error. -/
theorem teleport_map_empty_build_and_lookup (u : unit) (vt : team)
    (board : game_board) (sa iu cv : Bool) :
    (teleport_map.build [] u vt board sa iu cv).get_sources = ∅
    ∧ (teleport_map.build [] u vt board sa iu cv).get_targets = ∅
    ∧ (∀ loc, (teleport_map.build [] u vt board sa iu cv).get_adjacents loc = empty_set_)
    ∧ (∀ (gs : List teleport_group) (loc : map_location),
        loc ∉ (teleport_map.build gs u vt board sa iu cv).get_sources →
        (teleport_map.build gs u vt board sa iu cv).get_adjacents loc = empty_set_) := by
  refine ⟨rfl, rfl, ?_, ?_⟩
  · intro loc
    simp [teleport_map.build, teleport_map.get_adjacents]
  · intro gs loc hloc
    have hk := build_keys_eq_sources u vt board sa iu cv gs
      { teleport_map_keys := ∅, teleport_map_val := fun _ => ∅,
        sources_ := ∅, targets_ := ∅ } rfl
    rw [teleport_map.get_adjacents, if_neg]
    intro hmem
    rw [teleport_map.build] at hmem
    rw [hk] at hmem
    exact hloc hmem

theorem teleport_map_empty_build_and_lookup_witness :
    ((9 : Int), (9 : Int))
      ∉ (teleport_map.build [gA] uTest teamTest boardTest false false false).get_sources
    ∧ (teleport_map.build [gA] uTest teamTest boardTest false false false).get_adjacents
        ((9 : Int), (9 : Int)) = empty_set_ :=
  ⟨by decide,
    (teleport_map_empty_build_and_lookup uTest teamTest boardTest false false false).2.2.2
      [gA] ((9 : Int), (9 : Int)) (by decide)⟩

/-- C10: a group constructed from rule data with an empty id attribute gets
the freshly issued counter id with no reversed suffix appended, for either
value of the reversed flag; constructing its reversed twin afterwards
issues the next counter id, and the two ids are distinct. -/
theorem from_vconfig_anonymous_numeric_id (cfg : tunnel_cfg) (rev : Bool)
    (mgr : manager) (hid : cfg.id_attr.getD "" = "")
    (h1 : cfg.source_count = 1) (h2 : cfg.target_count = 1)
    (h3 : cfg.filter_count = 1) :
    teleport_group.from_vconfig cfg rev mgr
      = .ok ({ cfg_ := cfg, reversed_ := rev, id_ := int_to_string (mgr.id_ + 1) },
             { mgr with id_ := mgr.id_ + 1 })
    ∧ teleport_group.from_vconfig cfg true { mgr with id_ := mgr.id_ + 1 }
      = .ok ({ cfg_ := cfg, reversed_ := true, id_ := int_to_string (mgr.id_ + 2) },
             { mgr with id_ := mgr.id_ + 2 })
    ∧ int_to_string (mgr.id_ + 1) ≠ int_to_string (mgr.id_ + 2) := by
  have harith : mgr.id_ + 1 + 1 = mgr.id_ + 2 := by ring
  refine ⟨?_, ?_, ?_⟩
  · simp [teleport_group.from_vconfig, manager.next_unique_id, hid, h1, h2, h3]
  · simp only [teleport_group.from_vconfig, manager.next_unique_id, hid, h1, h2, h3,
      if_neg, harith]
    simp
  · intro hc
    have := int_to_string_injective hc
    omega

theorem from_vconfig_anonymous_numeric_id_witness :
    cfgAnon.id_attr.getD "" = ""
    ∧ teleport_group.from_vconfig cfgAnon true mTestC6
      = .ok ({ cfg_ := cfgAnon, reversed_ := true,
               id_ := int_to_string (mTestC6.id_ + 1) },
             { mTestC6 with id_ := mTestC6.id_ + 1 })
    ∧ int_to_string (mTestC6.id_ + 1) ≠ int_to_string (mTestC6.id_ + 2) :=
  ⟨rfl,
    (from_vconfig_anonymous_numeric_id cfgAnon true mTestC6 rfl rfl rfl rfl).1,
    (from_vconfig_anonymous_numeric_id cfgAnon true mTestC6 rfl rfl rfl rfl).2.2⟩

end pathfind
